import Mathlib

/-!
Verification development for `tiny_bvh_optimizer.cpp`: the representative
ray set (RRS) generator, the sharded traversal-cost evaluator, and the two
search stages of `main`.  Machine `float` arithmetic is embedded as exact
rational arithmetic; `uint32_t` accumulation is `Nat` arithmetic modulo
`2 ^ 32`.  The functions of the external `tiny_bvh.h` library (the
traversal oracle `Intersect`, the direction generator `tinybvh_rndvec3`,
and `tinybvh_normalize`) are not part of the optimizer source and are
modelled as abstract parameters, following the specification's external
interface section.
-/

namespace TinyBvhOpt

/-- A 3-component vector (`bvhvec3`), with exact rational components. -/
structure Vec3 where
  x : ℚ
  y : ℚ
  z : ℚ
deriving DecidableEq

def Vec3.add (a b : Vec3) : Vec3 := ⟨a.x + b.x, a.y + b.y, a.z + b.z⟩

def Vec3.sub (a b : Vec3) : Vec3 := ⟨a.x - b.x, a.y - b.y, a.z - b.z⟩

def Vec3.neg (a : Vec3) : Vec3 := ⟨-a.x, -a.y, -a.z⟩

/-- Componentwise product, as `bvhvec3 * bvhvec3` in tinybvh. -/
def Vec3.cmul (a b : Vec3) : Vec3 := ⟨a.x * b.x, a.y * b.y, a.z * b.z⟩

/-- Scalar product, as `bvhvec3 * float` in tinybvh. -/
def Vec3.smul (s : ℚ) (a : Vec3) : Vec3 := ⟨s * a.x, s * a.y, s * a.z⟩

def Vec3.dot (a b : Vec3) : ℚ := a.x * b.x + a.y * b.y + a.z * b.z

instance : Add Vec3 := ⟨Vec3.add⟩

instance : Sub Vec3 := ⟨Vec3.sub⟩

instance : Neg Vec3 := ⟨Vec3.neg⟩

/-- The `BVH_FAR` sentinel (1e30 in the source): "no hit". -/
def BVH_FAR : ℚ := 10 ^ 30

/-- A ray's hit record: hit distance `t` and hit primitive index. -/
structure Hit where
  t : ℚ
  prim : Nat
deriving DecidableEq

/-- A traversal query (`Ray`): origin, direction and a hit record. -/
structure Ray where
  O : Vec3
  D : Vec3
  hit : Hit
deriving DecidableEq

/-- The `Ray( origin, direction )` constructor: pristine hit record. -/
def Ray.make (O D : Vec3) : Ray := ⟨O, D, ⟨BVH_FAR, 0⟩⟩

/-- Modelled from the spec: the intermediate hierarchy built over the scene
(`tmp.Build`, from the external `tiny_bvh.h`, absent from the optimizer
source) is used purely as a traversal oracle during sampling.  `intersect`
returns the hit record `Intersect` writes into the ray together with the
traversal step count it returns; `normalCross` returns the un-normalized
geometric normal `cross( v1 - v0, v2 - v0 )` of a primitive; `bmin` and
`bext` are the scene's bounding-box minimum and extent
(`tmp.aabbMin`, `tmp.aabbMax - tmp.aabbMin`). -/
structure SceneOracle where
  bmin : Vec3
  bext : Vec3
  intersect : Ray → Hit × Nat
  normalCross : Nat → Vec3

/-- Modelled from the spec: the external pseudo-random direction generator
`tinybvh_rndvec3( uint32_t& seed )` (a deterministic function of the seed,
returning a direction and advancing the seed) and the external
`tinybvh_normalize`.  Both live in `tiny_bvh.h`, outside the optimizer
source, so they are abstract parameters of the generator model. -/
structure GenEnv where
  scene : SceneOracle
  rnd : Nat → Vec3 × Nat
  normalize : Vec3 → Vec3

/-- The library's `tinybvh_max`: `a > b ? a : b`. -/
def tinybvh_max (a b : ℚ) : ℚ := if b < a then a else b

/-- `sceneSize = tinybvh_max( tinybvh_max( bext.x, bext.y ), bext.z )`. -/
def sceneSize (e : GenEnv) : ℚ := tinybvh_max (tinybvh_max e.scene.bext.x e.scene.bext.y) e.scene.bext.z

/-- `shortRay = sceneSize * 0.03f`. -/
def shortRay (e : GenEnv) : ℚ := sceneSize e * (3 / 100)

/-- `longRay = sceneSize * 10`. -/
def longRay (e : GenEnv) : ℚ := sceneSize e * 10

/-- `epsilon = sceneSize * 0.00001f`. -/
def epsilonG (e : GenEnv) : ℚ := sceneSize e * (1 / 100000)

/-- `tooShort = 50 * epsilon`. -/
def tooShort (e : GenEnv) : ℚ := 50 * epsilonG e

/-- Interior-mode spawn point for grid coordinate `(x, y, z)`:
`bmin + (bvhvec3( x, y, z ) + 1) * (1.0f / 9.0f) * bext`. -/
def interiorSpawnXYZ (sc : SceneOracle) (x y z : Nat) : Vec3 :=
  sc.bmin + Vec3.cmul (Vec3.smul (1 / 9) ⟨(x : ℚ) + 1, (y : ℚ) + 1, (z : ℚ) + 1⟩) sc.bext

/-- Interior-mode spawn array `S`, indexed linearly as the source stores it
at `S[x + y * 8 + z * 64]`. -/
def interiorSpawn (sc : SceneOracle) (idx : Nat) : Vec3 :=
  interiorSpawnXYZ sc (idx % 8) (idx / 8 % 8) (idx / 64)


/-- One entry of the ray-store write log: the stratum the branch belongs
to (0–3 in source order), the array index written (`rayset[idx] = r`), and
the stored pristine ray copy. -/
structure WriteEntry where
  stratum : Nat
  idx : Nat
  ray : Ray
deriving DecidableEq

/-- The mutable locals of `RepresentativeRays`: the PRNG seed, the spawn
counter, the four stratum counters `Ngroup1..Ngroup4`, and the sequence of
writes into the `rayset` array. -/
structure GenState where
  seed : Nat
  spawnIdx : Nat
  n1 : Nat
  n2 : Nat
  n3 : Nat
  n4 : Nat
  log : List WriteEntry
deriving DecidableEq

/-- Initial generator state: `seed = 0x123456`, all counters zero. -/
def initGenState : GenState := ⟨0x123456, 0, 0, 0, 0, 0, []⟩

/-- The classify-and-store chain of the interior generator (source lines
186–192), for bounce number `j`, stored pristine copy `r` and hit `h`. -/
def interiorClassify (e : GenEnv) (N : Nat) (j : Nat) (r : Ray) (h : Hit)
    (s : GenState) : GenState :=
  if j = 0 ∧ h.t < longRay e ∧ s.n1 < N / 4 then
    { s with n1 := s.n1 + 1, log := s.log ++ [⟨0, s.n1, r⟩] }
  else if 0 < j ∧ h.t < shortRay e ∧ tooShort e < h.t ∧ s.n2 < N / 4 then
    { s with n2 := s.n2 + 1, log := s.log ++ [⟨1, s.n2 + N / 4, r⟩] }
  else if 0 < j ∧ h.t < longRay e ∧ shortRay e < h.t ∧ s.n3 < N / 4 then
    { s with n3 := s.n3 + 1, log := s.log ++ [⟨2, s.n3 + N / 2, r⟩] }
  else if 0 < j ∧ h.t = BVH_FAR ∧ s.n4 < N / 4 then
    { s with n4 := s.n4 + 1, log := s.log ++ [⟨3, s.n4 + 3 * (N / 4), r⟩] }
  else s

/-- The random-walk inner loop of the interior generator (`for j < 8`),
by remaining bounce budget `b` and current bounce number `j`; `P` and `R`
are the walk position and direction. -/
def interiorPath (e : GenEnv) (N : Nat) :
    Nat → Nat → Vec3 → Vec3 → GenState → GenState
  | 0, _, _, _, s => s
  | b + 1, j, P, R, s =>
    let r := Ray.make (P + Vec3.smul (epsilonG e) R) R
    let h := (e.scene.intersect r).1
    let s1 := interiorClassify e N j r h s
    if h.t = BVH_FAR then s1
    else
      let n0 := e.normalize (e.scene.normalCross h.prim)
      let nf := if 0 < Vec3.dot n0 R then Vec3.neg n0 else n0
      let R1 := (e.rnd s1.seed).1
      let seed1 := (e.rnd s1.seed).2
      let R2 := if Vec3.dot R1 nf < 0 then Vec3.neg R1 else R1
      interiorPath e N b (j + 1) (P + Vec3.smul h.t R2) R2 { s1 with seed := seed1 }

/-- The rejection-sampling outer loop of the interior generator
(`while Ngroup1+Ngroup2+Ngroup3+Ngroup4 < RRS_SIZE`), with explicit fuel
since the source loop is unbounded. -/
def interiorLoop (e : GenEnv) (N : Nat) : Nat → GenState → GenState
  | 0, s => s
  | fuel + 1, s =>
    if s.n1 + s.n2 + s.n3 + s.n4 < N then
      let P := interiorSpawn e.scene (s.spawnIdx % 512)
      let R := (e.rnd s.seed).1
      let seed1 := (e.rnd s.seed).2
      interiorLoop e N fuel
        (interiorPath e N 8 0 P R { s with spawnIdx := s.spawnIdx + 1, seed := seed1 })
    else s

/-- The exterior spawn-point setup
(`for i < 512, S[i] = tinybvh_rndvec3( seed ) * bext * 2`), returning the
spawn list in index order together with the advanced seed. -/
def exteriorSpawnsAux (e : GenEnv) : Nat → Nat → List Vec3 → List Vec3 × Nat
  | 0, seed, acc => (acc.reverse, seed)
  | n + 1, seed, acc =>
    let v := (e.rnd seed).1
    let seed1 := (e.rnd seed).2
    exteriorSpawnsAux e n seed1 (Vec3.smul 2 (Vec3.cmul v e.scene.bext) :: acc)

/-- The classify-and-store chain of the exterior generator (source lines
222–226): primary capped at `N/2`, the other two strata at `N/4`. -/
def exteriorClassify (e : GenEnv) (N : Nat) (j : Nat) (r : Ray) (h : Hit)
    (s : GenState) : GenState :=
  if j = 0 ∧ h.t < longRay e ∧ s.n1 < N / 2 then
    { s with n1 := s.n1 + 1, log := s.log ++ [⟨0, s.n1, r⟩] }
  else if 0 < j ∧ tooShort e < h.t ∧ s.n2 < N / 4 then
    { s with n2 := s.n2 + 1, log := s.log ++ [⟨1, s.n2 + N / 2, r⟩] }
  else if 0 < j ∧ h.t = BVH_FAR ∧ s.n3 < N / 4 then
    { s with n3 := s.n3 + 1, log := s.log ++ [⟨2, s.n3 + 3 * (N / 4), r⟩] }
  else s

/-- The random-walk inner loop of the exterior generator (same bounce
structure as the interior one, with the exterior classification). -/
def exteriorPath (e : GenEnv) (N : Nat) :
    Nat → Nat → Vec3 → Vec3 → GenState → GenState
  | 0, _, _, _, s => s
  | b + 1, j, P, R, s =>
    let r := Ray.make (P + Vec3.smul (epsilonG e) R) R
    let h := (e.scene.intersect r).1
    let s1 := exteriorClassify e N j r h s
    if h.t = BVH_FAR then s1
    else
      let n0 := e.normalize (e.scene.normalCross h.prim)
      let nf := if 0 < Vec3.dot n0 R then Vec3.neg n0 else n0
      let R1 := (e.rnd s1.seed).1
      let seed1 := (e.rnd s1.seed).2
      let R2 := if Vec3.dot R1 nf < 0 then Vec3.neg R1 else R1
      exteriorPath e N b (j + 1) (P + Vec3.smul h.t R2) R2 { s1 with seed := seed1 }

/-- The rejection-sampling outer loop of the exterior generator
(`while Ngroup1+Ngroup2+Ngroup3 < RRS_SIZE`), with spawn list `S`:
`P = S[spawnIdx++ & 511]`, `P2 = S[(spawnIdx * 13) & 511] * 0.1`,
`R = tinybvh_normalize( P2 - P )`. -/
def exteriorLoop (e : GenEnv) (N : Nat) (S : List Vec3) : Nat → GenState → GenState
  | 0, s => s
  | fuel + 1, s =>
    if s.n1 + s.n2 + s.n3 < N then
      let P := S.getD (s.spawnIdx % 512) ⟨0, 0, 0⟩
      let spawn1 := s.spawnIdx + 1
      let P2 := Vec3.smul (1 / 10) (S.getD (spawn1 * 13 % 512) ⟨0, 0, 0⟩)
      let R := e.normalize (P2 - P)
      exteriorLoop e N S fuel (exteriorPath e N 8 0 P R { s with spawnIdx := spawn1 })
    else s

/-- `RRS_INTERIOR` set type tag. -/
def RRS_INTERIOR : Nat := 1

/-- `RRS_OBJECT` set type tag. -/
def RRS_OBJECT : Nat := 2

/-- The full `RepresentativeRays( setType )` generator: seeds with the
constant `0x123456` and runs the mode selected by `setType`; `N` is
`RRS_SIZE` and `fuel` bounds the unbounded source loop. -/
def RepresentativeRays (e : GenEnv) (N setType fuel : Nat) : GenState :=
  if setType = RRS_INTERIOR then interiorLoop e N fuel initGenState
  else
    let S := (exteriorSpawnsAux e 512 initGenState.seed []).1
    let seed1 := (exteriorSpawnsAux e 512 initGenState.seed []).2
    exteriorLoop e N S fuel { initGenState with seed := seed1 }

/-- The four interior stratum counters each stay at or below `N / 4`. -/
def interiorCountersOK (N : Nat) (s : GenState) : Prop :=
  s.n1 ≤ N / 4 ∧ s.n2 ≤ N / 4 ∧ s.n3 ≤ N / 4 ∧ s.n4 ≤ N / 4


/-- Concrete traversal oracle for tests: hit distance depends on the ray
origin's x coordinate, so one 4-bounce walk meets all four interior
classification windows. -/
def cIntersect3 (r : Ray) : Hit × Nat :=
  (if r.O.x < 1 then ⟨1, 0⟩
   else if r.O.x < 112 / 100 then ⟨1 / 50, 0⟩
   else if r.O.x < 2 then ⟨1, 0⟩
   else ⟨BVH_FAR, 0⟩, 0)

/-- Concrete scene for tests: unit box at the origin, all primitive
normals along +y. -/
def cScene3 : SceneOracle := ⟨⟨0, 0, 0⟩, ⟨1, 1, 1⟩, cIntersect3, fun _ => ⟨0, 1, 0⟩⟩

/-- Concrete direction generator for tests: constant +x, advancing seed. -/
def cRnd3 : Nat → Vec3 × Nat := fun s => (⟨1, 0, 0⟩, s + 1)

/-- Concrete normalization for tests, agreeing with true normalization on
every vector it is applied to in the test runs (axis-aligned vectors). -/
def cNormalize : Vec3 → Vec3 := fun v => if v.x < 0 then ⟨-1, 0, 0⟩ else v

def cEnv3 : GenEnv := ⟨cScene3, cRnd3, cNormalize⟩

/-- Modelled from the spec: a hierarchy under evaluation is a traversal
oracle (`intersect(ray) -> stepCount`, mutating the ray's hit record;
`BVH::Intersect` lives in the external `tiny_bvh.h`): `run` returns the
hit record written into the ray and the step count returned. -/
structure BvhOracle where
  run : Ray → Hit × Nat

/-- `uint32_t` wrap-around addition, as in `sum += bvh->Intersect( r )`. -/
def addm (a b : Nat) : Nat := (a + b) % 2 ^ 32

/-- The accumulation loop shared by both branches of `TraceCostThread`:
process `cnt` rays of the shared ray store starting at index `i`, reading
`r = rayset[i]` (a copy) and adding the step count to the `uint32_t`
accumulator.  When a reference hierarchy is present, a second copy `r2`
of the same stored ray is traversed against it and the
`"damaged BVH.\n"` diagnostic is emitted when the two hit distances
differ.  Returns the accumulator, the diagnostics in order, and the ray
store as left after the loop. -/
def traceLoop (bvh : BvhOracle) (ref : Option BvhOracle) (store : Nat → Ray) :
    Nat → Nat → Nat → Nat × List String × (Nat → Ray)
  | 0, _, sum => (sum, [], store)
  | cnt + 1, i, sum =>
    let r := store i
    let steps := (bvh.run r).2
    let msgs : List String :=
      match ref with
      | some rb => if (bvh.run r).1.t ≠ ((rb.run (store i)).1).t then ["damaged BVH.\n"] else []
      | none => []
    let rest := traceLoop bvh ref store cnt (i + 1) (addm sum steps)
    (rest.1, msgs ++ rest.2.1, rest.2.2)

/-- `TraceCostThread( bvh, refBVH, set, sets )`: the shard bounds are
`setSize = RRS_SIZE / sets`, `start = setSize * set`, and
`end = (set == sets - 1) ? RRS_SIZE : start + setSize`. -/
def TraceCostThread (bvh : BvhOracle) (ref : Option BvhOracle) (store : Nat → Ray)
    (N set sets : Nat) : Nat × List String × (Nat → Ray) :=
  let setSize := N / sets
  let start := setSize * set
  let endIdx := if set = sets - 1 then N else start + setSize
  traceLoop bvh ref store (endIdx - start) start 0

/-- `RRSTraceCost` generalized to a configurable shard count: the source
spawns 8 threads, each writing its own `splitSum[set]`; after the join the
per-shard sums are added in `uint32_t` and divided by the ray count. -/
def RRSTraceCostSets (bvh : BvhOracle) (ref : Option BvhOracle) (store : Nat → Ray)
    (N sets : Nat) : ℚ :=
  let sums := (List.range sets).map (fun set => (TraceCostThread bvh ref store N set sets).1)
  ((sums.foldl addm 0 : Nat) : ℚ) / (N : ℚ)

/-- `RRSTraceCost( bvh, refBVH )` exactly as in the source: 8 shards. -/
def RRSTraceCost (bvh : BvhOracle) (ref : Option BvhOracle) (store : Nat → Ray) (N : Nat) : ℚ :=
  RRSTraceCostSets bvh ref store N 8

/-- The claim's sequential reference evaluator: every ray of the full set
in index order in one pass, mean step count per ray. -/
def seqMeanCost (bvh : BvhOracle) (store : Nat → Ray) (N : Nat) : ℚ :=
  ((traceLoop bvh none store N 0 0).1 : ℚ) / (N : ℚ)

/-- The timing loop of `RRSTraceTime`: 11 sequential passes over the full
set (`for i = 0; i <= 10`, the first warming the cache), all accumulating
into one `uint32_t` sum; only the traversal of the ray store is modelled
(wall-clock time is measured, not computed).  Returns the accumulator and
the ray store as left after the passes. -/
def RRSTraceTimeLoop (fast : BvhOracle) (store : Nat → Ray) (N : Nat) : Nat × (Nat → Ray) :=
  (List.range 11).foldl
    (fun acc _ =>
      let r := traceLoop fast none acc.2 N 0 acc.1
      (r.1, r.2.2)) (0, store)

/-- Stage-1 sweep state: the best RRS cost so far (`bestRRSCost`) and the
costs at which `bvh.Save( BEST_BINNED_BVH )` was called, in order. -/
structure Stage1State where
  best : ℚ
  saved : List ℚ
deriving DecidableEq

/-- One stage-1 sweep iteration (source lines 371–378): the checkpoint is
saved, and the best cost updated, exactly when the just-measured cost is
strictly lower than the best so far. -/
def stage1Step (st : Stage1State) (cost : ℚ) : Stage1State :=
  if cost < st.best then { best := cost, saved := st.saved ++ [cost] } else st

/-- The stage-1 sweep over the list of measured RRS costs of the swept
configurations, starting from the cost of the reference 8-bin build
(`baseCost = bestRRSCost = RRSTraceCost( &bvh )`). -/
def stage1Run (base : ℚ) (costs : List ℚ) : Stage1State :=
  costs.foldl stage1Step ⟨base, []⟩

/-- Modelled from the spec: stage 2's mutation operation (one reinsertion
round through `BVH_Verbose`, owned by the external library) is an
arbitrary function on an abstract hierarchy type, and the measured cost of
a hierarchy is an arbitrary function of it (`RRSTraceCost` is
deterministic for a fixed hierarchy and ray set).  One iteration measures
`costBefore`, mutates, measures `costAfter`, then commits (saving the
checkpoint) exactly when `costAfter < costBefore` and otherwise rolls back
to the pre-mutation hierarchy.  Returns the final hierarchy and the costs
of the saved checkpoints in order. -/
def stage2Iter {α : Type} (cost : α → ℚ) (mutate : Nat → α → α) :
    Nat → α → α × List ℚ
  | 0, b => (b, [])
  | k + 1, b =>
    let costBefore := cost b
    let b2 := mutate k b
    let costAfter := cost b2
    if costBefore ≤ costAfter then
      stage2Iter cost mutate k b
    else
      let rest := stage2Iter cost mutate k b2
      (rest.1, costAfter :: rest.2)

/-- The node storage and counts of a `BVH` as stage 2 snapshots them: the
`bvhNode` array idealized as an unbounded store, `usedNodes` and
`allocatedNodes`.  The node type itself (`BVH::BVHNode`, external) is
abstract. -/
structure BvhMem (Node : Type) where
  nodes : Nat → Node
  usedNodes : Nat
  allocatedNodes : Nat

/-- One rejected stage-2 iteration (source lines 419–420 and 434–435):
snapshot `backup = bvh.bvhNode` (`bvh.allocatedNodes` nodes) together with
`usedBackup`/`allocBackup`, apply the external mutation, then restore with
`memcpy( bvh.bvhNode, backup, bvh.allocatedNodes * sizeof( BVHNode ) )` —
note the count is the POST-mutation `bvh.allocatedNodes` — and reset both
counts from the backups. -/
def stage2Rollback {Node : Type} (b : BvhMem Node) (mutate : BvhMem Node → BvhMem Node) :
    BvhMem Node :=
  let backup := b.nodes
  let usedBackup := b.usedNodes
  let allocBackup := b.allocatedNodes
  let m := mutate b
  { nodes := fun i => if i < m.allocatedNodes then backup i else m.nodes i,
    usedNodes := usedBackup,
    allocatedNodes := allocBackup }

/-- Indices written into the `rayset` array for stratum `k`, in write
order. -/
def stratumIdxs (k : Nat) (l : List WriteEntry) : List Nat :=
  (l.filter (fun w => w.stratum == k)).map WriteEntry.idx

/-- Membership in the scene's axis-aligned bounding box scaled about its
center by factor `f` (the sampling sphere factor is 2: exterior spawn
points are `tinybvh_rndvec3( seed ) * bext * 2`). -/
def insideScaledBox (bmin bext : Vec3) (f : ℚ) (p : Vec3) : Prop :=
  (bmin.x + bext.x / 2 - f * bext.x / 2 < p.x ∧ p.x < bmin.x + bext.x / 2 + f * bext.x / 2) ∧
  (bmin.y + bext.y / 2 - f * bext.y / 2 < p.y ∧ p.y < bmin.y + bext.y / 2 + f * bext.y / 2) ∧
  (bmin.z + bext.z / 2 - f * bext.z / 2 < p.z ∧ p.z < bmin.z + bext.z / 2 + f * bext.z / 2)

/-- A unit direction, as `tinybvh_rndvec3` produces (modelled from the
spec: uniformly random directions). -/
def isUnitVec (v : Vec3) : Prop := v.x ^ 2 + v.y ^ 2 + v.z ^ 2 = 1

/-- Concrete exterior-mode oracle: hits at distance 2 for origins with
`x ≥ 1` (outside, looking in) and at distance 1 otherwise. -/
def cIntersect8 (r : Ray) : Hit × Nat :=
  (if 1 ≤ r.O.x then ⟨2, 0⟩ else ⟨1, 0⟩, 0)

/-- Concrete exterior scene: unit box centered at the origin, +y normals. -/
def cScene8 : SceneOracle := ⟨⟨-1/2, -1/2, -1/2⟩, ⟨1, 1, 1⟩, cIntersect8, fun _ => ⟨0, 1, 0⟩⟩

/-- Concrete direction generator for the exterior test: `+x` for the 512
spawn-setup draws, `-x` for every later (bounce) draw. -/
def cRnd8 : Nat → Vec3 × Nat :=
  fun s => (if s < 0x123456 + 512 then ⟨1, 0, 0⟩ else ⟨-1, 0, 0⟩, s + 1)

def cEnv8 : GenEnv := ⟨cScene8, cRnd8, cNormalize⟩

/-- Concrete direction generator producing a fixed unit vector. -/
def cRndU : Nat → Vec3 × Nat := fun s => (⟨3 / 5, 4 / 5, 0⟩, s + 1)

def cEnvU : GenEnv := ⟨cScene8, cRndU, cNormalize⟩

/-- The three exterior stratum counters stay within their caps:
`Ngroup1 ≤ N/2`, `Ngroup2, Ngroup3 ≤ N/4`. -/
def exteriorCountersOK (N : Nat) (s : GenState) : Prop :=
  s.n1 ≤ N / 2 ∧ s.n2 ≤ N / 4 ∧ s.n3 ≤ N / 4

/-- Write-log invariant of the interior generator: the indices written for
each stratum are exactly `base, base + 1, …, base + (count - 1)` in write
order (bases 0, `N/4`, `N/2`, `3·(N/4)`), every entry carries a stratum
tag 0–3, and no two writes hit the same array slot. -/
def interiorLogINV (N : Nat) (s : GenState) : Prop :=
  stratumIdxs 0 s.log = List.range s.n1 ∧
  stratumIdxs 1 s.log = (List.range s.n2).map (fun m => m + N / 4) ∧
  stratumIdxs 2 s.log = (List.range s.n3).map (fun m => m + N / 2) ∧
  stratumIdxs 3 s.log = (List.range s.n4).map (fun m => m + 3 * (N / 4)) ∧
  (∀ w ∈ s.log, w.stratum ≤ 3) ∧
  List.Pairwise (fun a b => a.idx ≠ b.idx) s.log

/-- Write-log invariant of the exterior generator: bases 0, `N/2` and
`3·(N/4)` for the primary, secondary and escape strata. -/
def exteriorLogINV (N : Nat) (s : GenState) : Prop :=
  stratumIdxs 0 s.log = List.range s.n1 ∧
  stratumIdxs 1 s.log = (List.range s.n2).map (fun m => m + N / 2) ∧
  stratumIdxs 2 s.log = (List.range s.n3).map (fun m => m + 3 * (N / 4)) ∧
  (∀ w ∈ s.log, w.stratum ≤ 2) ∧
  List.Pairwise (fun a b => a.idx ≠ b.idx) s.log

theorem vadd_mk (a b c d e f : ℚ) :
    Vec3.mk a b c + Vec3.mk d e f = ⟨a + d, b + e, c + f⟩ := rfl

theorem vsub_mk (a b c d e f : ℚ) :
    Vec3.mk a b c - Vec3.mk d e f = ⟨a - d, b - e, c - f⟩ := rfl

theorem vneg_mk (a b c : ℚ) : Vec3.neg ⟨a, b, c⟩ = ⟨-a, -b, -c⟩ := rfl

theorem vsmul_mk (s a b c : ℚ) : Vec3.smul s ⟨a, b, c⟩ = ⟨s * a, s * b, s * c⟩ := rfl

theorem vcmul_mk (a b c d e f : ℚ) :
    Vec3.cmul ⟨a, b, c⟩ ⟨d, e, f⟩ = ⟨a * d, b * e, c * f⟩ := rfl

theorem vdot_mk (a b c d e f : ℚ) :
    Vec3.dot ⟨a, b, c⟩ ⟨d, e, f⟩ = a * d + b * e + c * f := rfl


/-- C9: in interior mode, the spawn point at grid coordinate `(x, y, z)`
(stored at linear index `x + y*8 + z*64`) equals
`bmin + ((x+1)/9, (y+1)/9, (z+1)/9)` componentwise times the box extent;
each coordinate fraction lies in `[1/9, 8/9]`, and whenever the box extent
is positive in all components the point lies strictly inside the bounding
box, touching no face or corner. -/
theorem interior_spawn_grid_inside (sc : SceneOracle) (x y z : Nat)
    (hx : x < 8) (hy : y < 8) (hz : z < 8) :
    interiorSpawn sc (x + y * 8 + z * 64) =
      ⟨sc.bmin.x + ((x : ℚ) + 1) / 9 * sc.bext.x,
       sc.bmin.y + ((y : ℚ) + 1) / 9 * sc.bext.y,
       sc.bmin.z + ((z : ℚ) + 1) / 9 * sc.bext.z⟩ ∧
    ((1 / 9 : ℚ) ≤ ((x : ℚ) + 1) / 9 ∧ ((x : ℚ) + 1) / 9 ≤ 8 / 9) ∧
    ((1 / 9 : ℚ) ≤ ((y : ℚ) + 1) / 9 ∧ ((y : ℚ) + 1) / 9 ≤ 8 / 9) ∧
    ((1 / 9 : ℚ) ≤ ((z : ℚ) + 1) / 9 ∧ ((z : ℚ) + 1) / 9 ≤ 8 / 9) ∧
    (0 < sc.bext.x → 0 < sc.bext.y → 0 < sc.bext.z →
      (sc.bmin.x < (interiorSpawn sc (x + y * 8 + z * 64)).x ∧
        (interiorSpawn sc (x + y * 8 + z * 64)).x < sc.bmin.x + sc.bext.x) ∧
      (sc.bmin.y < (interiorSpawn sc (x + y * 8 + z * 64)).y ∧
        (interiorSpawn sc (x + y * 8 + z * 64)).y < sc.bmin.y + sc.bext.y) ∧
      (sc.bmin.z < (interiorSpawn sc (x + y * 8 + z * 64)).z ∧
        (interiorSpawn sc (x + y * 8 + z * 64)).z < sc.bmin.z + sc.bext.z)) := by
  have hxm : (x + y * 8 + z * 64) % 8 = x := by omega
  have hym : (x + y * 8 + z * 64) / 8 % 8 = y := by omega
  have hzm : (x + y * 8 + z * 64) / 64 = z := by omega
  have hform : interiorSpawn sc (x + y * 8 + z * 64) =
      ⟨sc.bmin.x + ((x : ℚ) + 1) / 9 * sc.bext.x,
       sc.bmin.y + ((y : ℚ) + 1) / 9 * sc.bext.y,
       sc.bmin.z + ((z : ℚ) + 1) / 9 * sc.bext.z⟩ := by
    have h1 : interiorSpawn sc (x + y * 8 + z * 64) = interiorSpawnXYZ sc x y z := by
      unfold interiorSpawn
      rw [hxm, hym, hzm]
    rw [h1]
    unfold interiorSpawnXYZ Vec3.smul Vec3.cmul
    show Vec3.add _ _ = _
    unfold Vec3.add
    simp only [Vec3.mk.injEq]
    refine ⟨by ring, by ring, by ring⟩
  have hxQ : ((x : ℚ)) ≤ 7 := by exact_mod_cast Nat.le_of_lt_succ hx
  have hyQ : ((y : ℚ)) ≤ 7 := by exact_mod_cast Nat.le_of_lt_succ hy
  have hzQ : ((z : ℚ)) ≤ 7 := by exact_mod_cast Nat.le_of_lt_succ hz
  have hx0 : (0 : ℚ) ≤ (x : ℚ) := Nat.cast_nonneg x
  have hy0 : (0 : ℚ) ≤ (y : ℚ) := Nat.cast_nonneg y
  have hz0 : (0 : ℚ) ≤ (z : ℚ) := Nat.cast_nonneg z
  refine ⟨hform, ⟨by linarith, by linarith⟩, ⟨by linarith, by linarith⟩,
    ⟨by linarith, by linarith⟩, ?_⟩
  intro hbx hby hbz
  rw [hform]
  refine ⟨⟨?_, ?_⟩, ⟨?_, ?_⟩, ⟨?_, ?_⟩⟩ <;> nlinarith

/-- Witness for C9 at the concrete grid corner `(0, 0, 0)` of a unit box:
the spawn point is `(1/9, 1/9, 1/9)`, strictly inside the box. -/
theorem interior_spawn_grid_inside_witness :
    interiorSpawn ⟨⟨0, 0, 0⟩, ⟨1, 1, 1⟩, fun _ => (⟨BVH_FAR, 0⟩, 0), fun _ => ⟨0, 0, 1⟩⟩ 0 =
      ⟨1 / 9, 1 / 9, 1 / 9⟩ := by
  have h := interior_spawn_grid_inside
    ⟨⟨0, 0, 0⟩, ⟨1, 1, 1⟩, fun _ => (⟨BVH_FAR, 0⟩, 0), fun _ => ⟨0, 0, 1⟩⟩ 0 0 0
    (by decide) (by decide) (by decide)
  rw [show (0 : Nat) = 0 + 0 * 8 + 0 * 64 from rfl, h.1]
  norm_num


theorem interiorClassify_counters (e : GenEnv) (N j : Nat) (r : Ray) (h : Hit)
    (s : GenState) (hs : interiorCountersOK N s) :
    interiorCountersOK N (interiorClassify e N j r h s) := by
  obtain ⟨h1, h2, h3, h4⟩ := hs
  unfold interiorClassify
  split_ifs with c1 c2 c3 c4
  · exact ⟨c1.2.2, h2, h3, h4⟩
  · exact ⟨h1, c2.2.2.2, h3, h4⟩
  · exact ⟨h1, h2, c3.2.2.2, h4⟩
  · exact ⟨h1, h2, h3, c4.2.2⟩
  · exact ⟨h1, h2, h3, h4⟩

theorem interiorPath_counters (e : GenEnv) (N : Nat) :
    ∀ (b j : Nat) (P R : Vec3) (s : GenState), interiorCountersOK N s →
      interiorCountersOK N (interiorPath e N b j P R s)
  | 0, _, _, _, _, hs => hs
  | b + 1, j, P, R, s, hs => by
    unfold interiorPath
    dsimp only
    have hc := interiorClassify_counters e N j
      (Ray.make (P + Vec3.smul (epsilonG e) R) R)
      (e.scene.intersect (Ray.make (P + Vec3.smul (epsilonG e) R) R)).1 s hs
    split
    · exact hc
    · exact interiorPath_counters e N b (j + 1) _ _ _ hc

theorem interiorLoop_counters (e : GenEnv) (N : Nat) :
    ∀ (fuel : Nat) (s : GenState), interiorCountersOK N s →
      interiorCountersOK N (interiorLoop e N fuel s)
  | 0, _, hs => hs
  | fuel + 1, s, hs => by
    unfold interiorLoop
    dsimp only
    split
    · exact interiorLoop_counters e N fuel _ (interiorPath_counters e N 8 0 _ _ _ hs)
    · exact hs

/-- C3: for the interior generator with sample count `N` (divisible by 4,
as every configured `RRS_SIZE` is), every stratum counter stays at or
below `N/4`; the outer loop's guard fails exactly when the four counters
sum to `N`; and at that point each stratum holds exactly `N/4` rays. -/
theorem interior_strata_sizes (e : GenEnv) (N fuel : Nat) (s : GenState)
    (h4 : 4 ∣ N) (hs : s = interiorLoop e N fuel initGenState) :
    (s.n1 ≤ N / 4 ∧ s.n2 ≤ N / 4 ∧ s.n3 ≤ N / 4 ∧ s.n4 ≤ N / 4) ∧
    (¬ (s.n1 + s.n2 + s.n3 + s.n4 < N) ↔ s.n1 + s.n2 + s.n3 + s.n4 = N) ∧
    (s.n1 + s.n2 + s.n3 + s.n4 = N →
      s.n1 = N / 4 ∧ s.n2 = N / 4 ∧ s.n3 = N / 4 ∧ s.n4 = N / 4) := by
  have hinv : interiorCountersOK N s := by
    rw [hs]
    exact interiorLoop_counters e N fuel initGenState
      ⟨Nat.zero_le _, Nat.zero_le _, Nat.zero_le _, Nat.zero_le _⟩
  obtain ⟨h1, h2, h3, h4c⟩ := hinv
  have hN : N = 4 * (N / 4) := (Nat.mul_div_cancel' h4).symm
  exact ⟨⟨h1, h2, h3, h4c⟩, by omega, by omega⟩

/-- C5: the generator is a deterministic function of the scene oracle,
the external PRNG/normalize functions, the sample count, the sampling mode
and the loop fuel; the seed is the constant `0x123456`, so two runs with
equal inputs produce identical states — in particular every stored ray
(origin, direction) and its array index agree entry by entry. -/
theorem rayset_generation_deterministic (e e' : GenEnv)
    (N N' setType setType' fuel fuel' : Nat)
    (he : e = e') (hN : N = N') (hm : setType = setType') (hf : fuel = fuel') :
    RepresentativeRays e N setType fuel = RepresentativeRays e' N' setType' fuel' ∧
    (∀ i : Nat, (RepresentativeRays e N setType fuel).log.get? i =
      (RepresentativeRays e' N' setType' fuel').log.get? i) ∧
    initGenState.seed = 0x123456 := by
  subst he hN hm hf
  exact ⟨rfl, fun _ => rfl, rfl⟩


set_option maxHeartbeats 2000000 in
/-- Witness for C3: with `N = 4` and the concrete oracle, the interior
generator terminates with each stratum holding exactly `N/4 = 1` ray. -/
theorem interior_strata_sizes_witness :
    (interiorLoop cEnv3 4 1 initGenState).n1 = 1 ∧
    (interiorLoop cEnv3 4 1 initGenState).n2 = 1 ∧
    (interiorLoop cEnv3 4 1 initGenState).n3 = 1 ∧
    (interiorLoop cEnv3 4 1 initGenState).n4 = 1 :=
  (interior_strata_sizes cEnv3 4 1 _ ⟨1, rfl⟩ rfl).2.2 (by
    norm_num [interiorLoop, interiorPath, interiorClassify, Ray.make, longRay, shortRay,
      tooShort, epsilonG, sceneSize, cEnv3, cScene3, cIntersect3, cRnd3, cNormalize,
      tinybvh_max, initGenState, interiorSpawn, interiorSpawnXYZ, BVH_FAR, vadd_mk, vneg_mk,
      vsmul_mk, vcmul_mk, vdot_mk])

theorem addm_lt (a b : Nat) : addm a b < 2 ^ 32 :=
  Nat.mod_lt _ (by norm_num)

theorem traceLoop_fst (bvh : BvhOracle) (ref : Option BvhOracle) (store : Nat → Ray) :
    ∀ (cnt i a : Nat), a < 2 ^ 32 →
      (traceLoop bvh ref store cnt i a).1 =
        (a + ∑ k in Finset.range cnt, (bvh.run (store (i + k))).2) % 2 ^ 32
  | 0, i, a, ha => by
    simp only [traceLoop, Finset.range_zero, Finset.sum_empty]
    omega
  | cnt + 1, i, a, ha => by
    have ih := traceLoop_fst bvh ref store cnt (i + 1)
      (addm a ((bvh.run (store i)).2)) (addm_lt _ _)
    unfold traceLoop
    dsimp only
    rw [ih]
    have hsh : ∀ k, i + (k + 1) = (i + 1) + k := by omega
    have hsum : (∑ k in Finset.range cnt, (bvh.run (store (i + (k + 1)))).2) =
        ∑ k in Finset.range cnt, (bvh.run (store ((i + 1) + k))).2 :=
      Finset.sum_congr rfl (fun k _ => by rw [hsh k])
    rw [Finset.sum_range_succ', hsum]
    unfold addm
    rw [Nat.mod_add_mod]
    congr 1
    simp only [Nat.add_zero]
    omega

theorem sum_range_split (g : Nat → Nat) (b : Nat) :
    ∀ c, ∑ k in Finset.range (b + c), g k =
      (∑ k in Finset.range b, g k) + ∑ k in Finset.range c, g (b + k)
  | 0 => by simp
  | c + 1 => by
    rw [show b + (c + 1) = (b + c) + 1 from rfl, Finset.sum_range_succ,
      sum_range_split g b c, Finset.sum_range_succ]
    omega

theorem shard_prefix_sum (g : Nat → Nat) (ss : Nat) :
    ∀ m, ∑ set in Finset.range m, ∑ k in Finset.range ss, g (ss * set + k) =
      ∑ k in Finset.range (ss * m), g k
  | 0 => by simp
  | m + 1 => by
    rw [Finset.sum_range_succ, shard_prefix_sum g ss m, Nat.mul_succ,
      sum_range_split g (ss * m) ss]

theorem foldl_addm (l : List Nat) :
    ∀ a, a < 2 ^ 32 → l.foldl addm a = (a + l.sum) % 2 ^ 32 := by
  induction l with
  | nil =>
    intro a ha
    simp only [List.foldl_nil, List.sum_nil, Nat.add_zero]
    omega
  | cons x l ih =>
    intro a ha
    rw [List.foldl_cons, ih (addm a x) (addm_lt a x), List.sum_cons]
    unfold addm
    rw [Nat.mod_add_mod]
    congr 1
    omega

theorem list_sum_range_map (f : Nat → Nat) :
    ∀ n, ((List.range n).map f).sum = ∑ k in Finset.range n, f k
  | 0 => by simp
  | n + 1 => by
    rw [List.range_succ, List.map_append, List.sum_append, list_sum_range_map f n,
      Finset.sum_range_succ]
    simp

theorem shard_sums_total (g : Nat → Nat) (N sets : Nat) (hs : 1 ≤ sets) :
    ∑ set in Finset.range sets,
      ∑ k in Finset.range ((if set = sets - 1 then N else N / sets * set + N / sets)
          - N / sets * set), g (N / sets * set + k) =
      ∑ k in Finset.range N, g k := by
  obtain ⟨m, rfl⟩ : ∃ m, sets = m + 1 := ⟨sets - 1, by omega⟩
  set ss := N / (m + 1) with hss
  have hprec : ss * (m + 1) ≤ N := by
    rw [hss, Nat.mul_comm]
    exact Nat.mul_div_le N (m + 1)
  have hm : ss * m ≤ N := le_trans (Nat.mul_le_mul_left ss (Nat.le_succ m)) hprec
  rw [Finset.sum_range_succ]
  have hinner : ∀ set ∈ Finset.range m,
      (∑ k in Finset.range ((if set = m + 1 - 1 then N else ss * set + ss) - ss * set),
        g (ss * set + k)) = ∑ k in Finset.range ss, g (ss * set + k) := by
    intro set hset
    have : set ≠ m + 1 - 1 := by
      have := Finset.mem_range.1 hset
      omega
    rw [if_neg this, Nat.add_sub_cancel_left]
  rw [Finset.sum_congr rfl hinner, shard_prefix_sum g ss m, if_pos (by omega)]
  have hN : N = ss * m + (N - ss * m) := by omega
  conv_rhs => rw [hN]
  rw [sum_range_split g (ss * m) (N - ss * m)]

/-- C1: for every hierarchy, reference option and ray store, and every
shard count `sets ≥ 1` (evenly or unevenly dividing `N`), the parallel
evaluator's result equals the sequential mean traversal-step count over
the full set in index order (both accumulated in `uint32_t`); in
particular the source's 8-shard `RRSTraceCost` equals it. -/
theorem RRSTraceCost_eq_sequential (bvh : BvhOracle) (ref : Option BvhOracle)
    (store : Nat → Ray) (N sets : Nat) (hs : 1 ≤ sets) :
    RRSTraceCostSets bvh ref store N sets = seqMeanCost bvh store N ∧
    RRSTraceCost bvh ref store N = seqMeanCost bvh store N := by
  have main : ∀ sets1 : Nat, 1 ≤ sets1 →
      RRSTraceCostSets bvh ref store N sets1 = seqMeanCost bvh store N := by
    intro sets1 hs1
    unfold RRSTraceCostSets seqMeanCost TraceCostThread
    dsimp only
    rw [foldl_addm _ 0 (by norm_num), list_sum_range_map]
    have hshard : ∀ set,
        (traceLoop bvh ref store
          ((if set = sets1 - 1 then N else N / sets1 * set + N / sets1) - N / sets1 * set)
          (N / sets1 * set) 0).1 =
        (∑ k in Finset.range ((if set = sets1 - 1 then N else N / sets1 * set + N / sets1)
            - N / sets1 * set), (bvh.run (store (N / sets1 * set + k))).2) % 2 ^ 32 := by
      intro set
      rw [traceLoop_fst bvh ref store _ _ 0 (by norm_num)]
      simp
    rw [Finset.sum_congr rfl (fun set _ => hshard set), Nat.zero_add,
      ← Finset.sum_nat_mod,
      shard_sums_total (fun t => (bvh.run (store t)).2) N sets1 hs1,
      traceLoop_fst bvh none store N 0 0 (by norm_num), Nat.zero_add]
    simp
  exact ⟨main sets hs, main 8 (by norm_num)⟩

/-- Witness for C1 at a concrete instance: 5 rays, 3 shards (an uneven
partition: shard sizes 1, 1, 3); the cost equals the sequential mean. -/
theorem RRSTraceCost_eq_sequential_witness :
    RRSTraceCostSets ⟨fun r => (r.hit, 1)⟩ none (fun i => Ray.make ⟨(i : ℚ), 0, 0⟩ ⟨0, 0, 1⟩) 5 3 =
      seqMeanCost ⟨fun r => (r.hit, 1)⟩ (fun i => Ray.make ⟨(i : ℚ), 0, 0⟩ ⟨0, 0, 1⟩) 5 :=
  (RRSTraceCost_eq_sequential ⟨fun r => (r.hit, 1)⟩ none
    (fun i => Ray.make ⟨(i : ℚ), 0, 0⟩ ⟨0, 0, 1⟩) 5 3 (by norm_num)).1

/-- Witness for C5: two runs of the generator on the same concrete inputs
agree, and the fixed seed is `0x123456`. -/
theorem rayset_generation_deterministic_witness :
    RepresentativeRays cEnv3 4 1 1 = RepresentativeRays cEnv3 4 1 1 ∧
    (∀ i : Nat, (RepresentativeRays cEnv3 4 1 1).log.get? i =
      (RepresentativeRays cEnv3 4 1 1).log.get? i) ∧
    initGenState.seed = 0x123456 :=
  rayset_generation_deterministic cEnv3 cEnv3 4 4 1 1 1 1 rfl rfl rfl rfl

theorem traceLoop_store (bvh : BvhOracle) (ref : Option BvhOracle) (store : Nat → Ray) :
    ∀ (cnt i a : Nat), (traceLoop bvh ref store cnt i a).2.2 = store
  | 0, _, _ => rfl
  | cnt + 1, i, a => by
    unfold traceLoop
    dsimp only
    exact traceLoop_store bvh ref store cnt (i + 1) _

/-- C6: cost evaluation never mutates the ray set: each traversal in
`TraceCostThread` (with or without a reference hierarchy) and in the
timing passes of `RRSTraceTime` operates on a local copy of the stored
ray, so the shared ray store comes out of every evaluation unchanged. -/
theorem cost_eval_preserves_rayset (bvh fast : BvhOracle) (ref : Option BvhOracle)
    (store : Nat → Ray) (N set sets : Nat) :
    (TraceCostThread bvh ref store N set sets).2.2 = store ∧
    (RRSTraceTimeLoop fast store N).2 = store := by
  constructor
  · unfold TraceCostThread
    exact traceLoop_store bvh ref store _ _ 0
  · unfold RRSTraceTimeLoop
    have hgen : ∀ (l : List Nat) (acc : Nat × (Nat → Ray)), acc.2 = store →
        (l.foldl (fun acc _ =>
          let r := traceLoop fast none acc.2 N 0 acc.1
          (r.1, r.2.2)) acc).2 = store := by
      intro l
      induction l with
      | nil => intro acc h; exact h
      | cons x l ih =>
        intro acc h
        rw [List.foldl_cons]
        refine ih _ ?_
        show (traceLoop fast none acc.2 N 0 acc.1).2.2 = store
        rw [h]
        exact traceLoop_store fast none store N 0 acc.1
    exact hgen _ _ rfl

theorem traceLoop_fst_ref (bvh rb : BvhOracle) (store : Nat → Ray) :
    ∀ (cnt i a : Nat),
      (traceLoop bvh (some rb) store cnt i a).1 = (traceLoop bvh none store cnt i a).1
  | 0, _, _ => rfl
  | cnt + 1, i, a => by
    unfold traceLoop
    dsimp only
    exact traceLoop_fst_ref bvh rb store cnt (i + 1) _

/-- C7: supplying a reference hierarchy only adds diagnostics: a
hit-distance mismatch does not stop the shard loop or change the
accumulation — every ray's step count is still added, so the shard sum
and the returned scalar cost equal those of the evaluation without a
reference hierarchy. -/
theorem refcheck_cost_unchanged (bvh rb : BvhOracle) (store : Nat → Ray)
    (N set sets : Nat) :
    (TraceCostThread bvh (some rb) store N set sets).1 =
      (TraceCostThread bvh none store N set sets).1 ∧
    RRSTraceCostSets bvh (some rb) store N sets = RRSTraceCostSets bvh none store N sets ∧
    RRSTraceCost bvh (some rb) store N = RRSTraceCost bvh none store N := by
  have hT : ∀ set1 sets1 : Nat, (TraceCostThread bvh (some rb) store N set1 sets1).1 =
      (TraceCostThread bvh none store N set1 sets1).1 := by
    intro set1 sets1
    unfold TraceCostThread
    exact traceLoop_fst_ref bvh rb store _ _ 0
  have hS : ∀ sets1 : Nat,
      RRSTraceCostSets bvh (some rb) store N sets1 = RRSTraceCostSets bvh none store N sets1 := by
    intro sets1
    unfold RRSTraceCostSets
    dsimp only
    rw [List.map_congr_left (fun set1 _ => hT set1 sets1)]
  exact ⟨hT set sets, hS sets, hS 8⟩

/-- C2: after a rejected stage-2 mutation, the rollback restores the
hierarchy exactly, provided the external mutation does not shrink the
allocated-node count (the restoring `memcpy` copies the post-mutation
`bvh.allocatedNodes` nodes from the backup; tinybvh's conversions only
ever grow the allocation): every node of the restored storage (all
indices below the restored `allocatedNodes`) equals the pre-mutation
snapshot, and the used-node and allocated-node counts are restored
verbatim. -/
theorem rollback_exact {Node : Type} (b : BvhMem Node) (mutate : BvhMem Node → BvhMem Node)
    (halloc : b.allocatedNodes ≤ (mutate b).allocatedNodes) :
    (∀ i, i < b.allocatedNodes → (stage2Rollback b mutate).nodes i = b.nodes i) ∧
    (stage2Rollback b mutate).usedNodes = b.usedNodes ∧
    (stage2Rollback b mutate).allocatedNodes = b.allocatedNodes := by
  refine ⟨?_, rfl, rfl⟩
  intro i hi
  show (if i < (mutate b).allocatedNodes then b.nodes i else (mutate b).nodes i) = b.nodes i
  rw [if_pos (lt_of_lt_of_le hi halloc)]

/-- Witness for C2: a concrete store of naturals with a mutation that
rewrites every node and grows the allocation; the rollback restores node
1 and both counts. -/
theorem rollback_exact_witness :
    (stage2Rollback (⟨fun i => i, 2, 3⟩ : BvhMem Nat)
      (fun _ => ⟨fun i => i + 7, 5, 4⟩)).nodes 1 = 1 ∧
    (stage2Rollback (⟨fun i => i, 2, 3⟩ : BvhMem Nat)
      (fun _ => ⟨fun i => i + 7, 5, 4⟩)).usedNodes = 2 ∧
    (stage2Rollback (⟨fun i => i, 2, 3⟩ : BvhMem Nat)
      (fun _ => ⟨fun i => i + 7, 5, 4⟩)).allocatedNodes = 3 :=
  ⟨(rollback_exact ⟨fun i => i, 2, 3⟩ (fun _ => ⟨fun i => i + 7, 5, 4⟩)
      (by norm_num)).1 1 (by norm_num),
   (rollback_exact ⟨fun i => i, 2, 3⟩ (fun _ => ⟨fun i => i + 7, 5, 4⟩)
      (by norm_num)).2.1,
   (rollback_exact ⟨fun i => i, 2, 3⟩ (fun _ => ⟨fun i => i + 7, 5, 4⟩)
      (by norm_num)).2.2⟩

theorem stage1_fold_inv :
    ∀ (costs : List ℚ) (st : Stage1State),
      List.Chain' (fun a b => b < a) st.saved → (∀ c ∈ st.saved, st.best ≤ c) →
      List.Chain' (fun a b => b < a) (costs.foldl stage1Step st).saved ∧
      (∀ c ∈ (costs.foldl stage1Step st).saved, (costs.foldl stage1Step st).best ≤ c) := by
  intro costs
  induction costs with
  | nil => intro st h1 h2; exact ⟨h1, h2⟩
  | cons cost costs ih =>
    intro st h1 h2
    rw [List.foldl_cons]
    by_cases hc : cost < st.best
    · have hstep : stage1Step st cost = ⟨cost, st.saved ++ [cost]⟩ := by
        unfold stage1Step
        rw [if_pos hc]
      rw [hstep]
      refine ih _ ?_ ?_
      · rw [List.chain'_append]
        refine ⟨h1, List.chain'_singleton cost, ?_⟩
        intro x hx y hy
        simp only [List.head?_cons, Option.mem_def, Option.some.injEq] at hy
        subst hy
        have hxmem : x ∈ st.saved := List.mem_of_mem_getLast? hx
        exact lt_of_lt_of_le hc (h2 x hxmem)
      · intro c hc2
        rcases List.mem_append.1 hc2 with h | h
        · exact le_of_lt (lt_of_lt_of_le hc (h2 c h))
        · simp only [List.mem_singleton] at h
          exact le_of_eq h.symm
    · have hstep : stage1Step st cost = st := by
        unfold stage1Step
        rw [if_neg hc]
      rw [hstep]
      exact ih st h1 h2

theorem stage2_saved_sorted {α : Type} (cost : α → ℚ) (mutate : Nat → α → α) :
    ∀ (k : Nat) (b : α),
      List.Chain' (fun a c => c < a) (cost b :: (stage2Iter cost mutate k b).2)
  | 0, b => List.chain'_singleton (cost b)
  | k + 1, b => by
    unfold stage2Iter
    dsimp only
    split
    · exact stage2_saved_sorted cost mutate k b
    · rename_i hlt
      rw [List.chain'_cons]
      refine ⟨by linarith [not_le.1 hlt], ?_⟩
      exact stage2_saved_sorted cost mutate k (mutate k b)

/-- C4: in stage 1 the checkpoint is saved only on a strictly lower cost
(an equal cost leaves the state, and hence the checkpoint file,
untouched) and the sequence of saved checkpoint costs is strictly
decreasing; in stage 2 the sequence of committed (saved) checkpoint
costs, prefixed by the cost of the starting hierarchy, is strictly
decreasing as well — every newly written checkpoint has strictly lower
measured cost than the previous one. -/
theorem checkpoint_strictly_improving :
    (∀ (base : ℚ) (costs : List ℚ),
      List.Chain' (fun a b => b < a) (stage1Run base costs).saved) ∧
    (∀ (st : Stage1State) (c : ℚ), st.best ≤ c → stage1Step st c = st) ∧
    (∀ (α : Type) (cost : α → ℚ) (mutate : Nat → α → α) (k : Nat) (b : α),
      List.Chain' (fun a c => c < a) (cost b :: (stage2Iter cost mutate k b).2)) := by
  refine ⟨?_, ?_, ?_⟩
  · intro base costs
    exact (stage1_fold_inv costs ⟨base, []⟩ List.chain'_nil (by simp)).1
  · intro st c hc
    unfold stage1Step
    rw [if_neg (not_lt.2 hc)]
  · intro α cost mutate k b
    exact stage2_saved_sorted cost mutate k b

/-- Witness for C4: a concrete stage-1 sweep (baseline 1, measured costs
[2, 1/2, 1/2, 1/4]) yields the strictly decreasing save sequence; an
equal-cost measurement does not touch the state; a concrete stage-2 run
(halving mutation) yields a strictly decreasing commit sequence. -/
theorem checkpoint_strictly_improving_witness :
    List.Chain' (fun a b => b < a) (stage1Run 1 [2, 1/2, 1/2, 1/4]).saved ∧
    stage1Step ⟨1, []⟩ 1 = ⟨1, []⟩ ∧
    List.Chain' (fun a c => c < a)
      ((1 : ℚ) :: (stage2Iter (fun q : ℚ => q) (fun _ q => q / 2) 2 1).2) :=
  ⟨checkpoint_strictly_improving.1 1 [2, 1/2, 1/2, 1/4],
   checkpoint_strictly_improving.2.1 ⟨1, []⟩ 1 (le_refl 1),
   checkpoint_strictly_improving.2.2 ℚ (fun q => q) (fun _ q => q / 2) 2 1⟩

theorem stratumIdxs_append (k : Nat) (l : List WriteEntry) (w : WriteEntry) :
    stratumIdxs k (l ++ [w]) =
      stratumIdxs k l ++ (if w.stratum = k then [w.idx] else []) := by
  unfold stratumIdxs
  rw [List.filter_append, List.map_append]
  congr 1
  by_cases h : w.stratum = k
  · simp [List.filter_singleton, h]
  · simp [List.filter_singleton, h]

theorem stratumIdxs_append_entry (k st i : Nat) (rr : Ray) (l : List WriteEntry) :
    stratumIdxs k (l ++ [⟨st, i, rr⟩]) =
      stratumIdxs k l ++ (if st = k then [i] else []) :=
  stratumIdxs_append k l ⟨st, i, rr⟩

theorem mem_stratumIdxs_self (l : List WriteEntry) (w : WriteEntry) (hw : w ∈ l) :
    w.idx ∈ stratumIdxs w.stratum l :=
  List.mem_map_of_mem _ (List.mem_filter.2 ⟨hw, by simp⟩)

theorem interior_log_bounds (N : Nat) (s : GenState) (hs : interiorLogINV N s) :
    ∀ w ∈ s.log,
      (w.stratum = 0 ∧ w.idx < s.n1) ∨
      (w.stratum = 1 ∧ N / 4 ≤ w.idx ∧ w.idx < N / 4 + s.n2) ∨
      (w.stratum = 2 ∧ N / 2 ≤ w.idx ∧ w.idx < N / 2 + s.n3) ∨
      (w.stratum = 3 ∧ 3 * (N / 4) ≤ w.idx ∧ w.idx < 3 * (N / 4) + s.n4) := by
  obtain ⟨h0, h1, h2, h3, hst, -⟩ := hs
  intro w hw
  have hmem := mem_stratumIdxs_self s.log w hw
  have hle := hst w hw
  have hcase : w.stratum = 0 ∨ w.stratum = 1 ∨ w.stratum = 2 ∨ w.stratum = 3 := by omega
  rcases hcase with h | h | h | h
  · rw [h, h0] at hmem
    exact Or.inl ⟨h, List.mem_range.1 hmem⟩
  · rw [h, h1] at hmem
    obtain ⟨m, hm, heq⟩ := List.mem_map.1 hmem
    have := List.mem_range.1 hm
    exact Or.inr (Or.inl ⟨h, by omega⟩)
  · rw [h, h2] at hmem
    obtain ⟨m, hm, heq⟩ := List.mem_map.1 hmem
    have := List.mem_range.1 hm
    exact Or.inr (Or.inr (Or.inl ⟨h, by omega⟩))
  · rw [h, h3] at hmem
    obtain ⟨m, hm, heq⟩ := List.mem_map.1 hmem
    have := List.mem_range.1 hm
    exact Or.inr (Or.inr (Or.inr ⟨h, by omega⟩))

theorem interiorClassify_logINV (e : GenEnv) (N j : Nat) (r : Ray) (h : Hit) (s : GenState)
    (h4 : 4 ∣ N) (hc : interiorCountersOK N s) (hs : interiorLogINV N s) :
    interiorLogINV N (interiorClassify e N j r h s) := by
  obtain ⟨q, hq⟩ := h4
  obtain ⟨hn1, hn2, hn3, hn4⟩ := hc
  have hbounds := interior_log_bounds N s hs
  obtain ⟨h0, h1, h2, h3, hst, hpw⟩ := hs
  unfold interiorClassify
  split_ifs with c1 c2 c3 c4
  · refine ⟨?_, ?_, ?_, ?_, ?_, ?_⟩
    · show stratumIdxs 0 (s.log ++ [⟨0, s.n1, r⟩]) = List.range (s.n1 + 1)
      rw [stratumIdxs_append_entry, if_pos rfl, h0, List.range_succ]
    · show stratumIdxs 1 (s.log ++ [⟨0, s.n1, r⟩]) =
        (List.range s.n2).map (fun m => m + N / 4)
      rw [stratumIdxs_append_entry, if_neg (by norm_num), h1, List.append_nil]
    · show stratumIdxs 2 (s.log ++ [⟨0, s.n1, r⟩]) =
        (List.range s.n3).map (fun m => m + N / 2)
      rw [stratumIdxs_append_entry, if_neg (by norm_num), h2, List.append_nil]
    · show stratumIdxs 3 (s.log ++ [⟨0, s.n1, r⟩]) =
        (List.range s.n4).map (fun m => m + 3 * (N / 4))
      rw [stratumIdxs_append_entry, if_neg (by norm_num), h3, List.append_nil]
    · intro w hw
      rcases List.mem_append.1 hw with hw | hw
      · exact hst w hw
      · rw [List.mem_singleton] at hw
        subst hw
        exact (by norm_num : (0 : Nat) ≤ 3)
    · rw [List.pairwise_append]
      refine ⟨hpw, List.pairwise_singleton _ _, ?_⟩
      intro a ha b hb
      rw [List.mem_singleton] at hb
      subst hb
      show a.idx ≠ s.n1
      have hlt := c1.2.2
      rcases hbounds a ha with ⟨-, hb1⟩ | ⟨-, hb1, hb2⟩ | ⟨-, hb1, hb2⟩ | ⟨-, hb1, hb2⟩ <;>
        omega
  · refine ⟨?_, ?_, ?_, ?_, ?_, ?_⟩
    · show stratumIdxs 0 (s.log ++ [⟨1, s.n2 + N / 4, r⟩]) = List.range s.n1
      rw [stratumIdxs_append_entry, if_neg (by norm_num), h0, List.append_nil]
    · show stratumIdxs 1 (s.log ++ [⟨1, s.n2 + N / 4, r⟩]) =
        (List.range (s.n2 + 1)).map (fun m => m + N / 4)
      rw [stratumIdxs_append_entry, if_pos rfl, h1, List.range_succ, List.map_append]
      simp
    · show stratumIdxs 2 (s.log ++ [⟨1, s.n2 + N / 4, r⟩]) =
        (List.range s.n3).map (fun m => m + N / 2)
      rw [stratumIdxs_append_entry, if_neg (by norm_num), h2, List.append_nil]
    · show stratumIdxs 3 (s.log ++ [⟨1, s.n2 + N / 4, r⟩]) =
        (List.range s.n4).map (fun m => m + 3 * (N / 4))
      rw [stratumIdxs_append_entry, if_neg (by norm_num), h3, List.append_nil]
    · intro w hw
      rcases List.mem_append.1 hw with hw | hw
      · exact hst w hw
      · rw [List.mem_singleton] at hw
        subst hw
        exact (by norm_num : (1 : Nat) ≤ 3)
    · rw [List.pairwise_append]
      refine ⟨hpw, List.pairwise_singleton _ _, ?_⟩
      intro a ha b hb
      rw [List.mem_singleton] at hb
      subst hb
      show a.idx ≠ s.n2 + N / 4
      have hlt := c2.2.2.2
      rcases hbounds a ha with ⟨-, hb1⟩ | ⟨-, hb1, hb2⟩ | ⟨-, hb1, hb2⟩ | ⟨-, hb1, hb2⟩ <;>
        omega
  · refine ⟨?_, ?_, ?_, ?_, ?_, ?_⟩
    · show stratumIdxs 0 (s.log ++ [⟨2, s.n3 + N / 2, r⟩]) = List.range s.n1
      rw [stratumIdxs_append_entry, if_neg (by norm_num), h0, List.append_nil]
    · show stratumIdxs 1 (s.log ++ [⟨2, s.n3 + N / 2, r⟩]) =
        (List.range s.n2).map (fun m => m + N / 4)
      rw [stratumIdxs_append_entry, if_neg (by norm_num), h1, List.append_nil]
    · show stratumIdxs 2 (s.log ++ [⟨2, s.n3 + N / 2, r⟩]) =
        (List.range (s.n3 + 1)).map (fun m => m + N / 2)
      rw [stratumIdxs_append_entry, if_pos rfl, h2, List.range_succ, List.map_append]
      simp
    · show stratumIdxs 3 (s.log ++ [⟨2, s.n3 + N / 2, r⟩]) =
        (List.range s.n4).map (fun m => m + 3 * (N / 4))
      rw [stratumIdxs_append_entry, if_neg (by norm_num), h3, List.append_nil]
    · intro w hw
      rcases List.mem_append.1 hw with hw | hw
      · exact hst w hw
      · rw [List.mem_singleton] at hw
        subst hw
        exact (by norm_num : (2 : Nat) ≤ 3)
    · rw [List.pairwise_append]
      refine ⟨hpw, List.pairwise_singleton _ _, ?_⟩
      intro a ha b hb
      rw [List.mem_singleton] at hb
      subst hb
      show a.idx ≠ s.n3 + N / 2
      have hlt := c3.2.2.2
      rcases hbounds a ha with ⟨-, hb1⟩ | ⟨-, hb1, hb2⟩ | ⟨-, hb1, hb2⟩ | ⟨-, hb1, hb2⟩ <;>
        omega
  · refine ⟨?_, ?_, ?_, ?_, ?_, ?_⟩
    · show stratumIdxs 0 (s.log ++ [⟨3, s.n4 + 3 * (N / 4), r⟩]) = List.range s.n1
      rw [stratumIdxs_append_entry, if_neg (by norm_num), h0, List.append_nil]
    · show stratumIdxs 1 (s.log ++ [⟨3, s.n4 + 3 * (N / 4), r⟩]) =
        (List.range s.n2).map (fun m => m + N / 4)
      rw [stratumIdxs_append_entry, if_neg (by norm_num), h1, List.append_nil]
    · show stratumIdxs 2 (s.log ++ [⟨3, s.n4 + 3 * (N / 4), r⟩]) =
        (List.range s.n3).map (fun m => m + N / 2)
      rw [stratumIdxs_append_entry, if_neg (by norm_num), h2, List.append_nil]
    · show stratumIdxs 3 (s.log ++ [⟨3, s.n4 + 3 * (N / 4), r⟩]) =
        (List.range (s.n4 + 1)).map (fun m => m + 3 * (N / 4))
      rw [stratumIdxs_append_entry, if_pos rfl, h3, List.range_succ, List.map_append]
      simp
    · intro w hw
      rcases List.mem_append.1 hw with hw | hw
      · exact hst w hw
      · rw [List.mem_singleton] at hw
        subst hw
        exact (by norm_num : (3 : Nat) ≤ 3)
    · rw [List.pairwise_append]
      refine ⟨hpw, List.pairwise_singleton _ _, ?_⟩
      intro a ha b hb
      rw [List.mem_singleton] at hb
      subst hb
      show a.idx ≠ s.n4 + 3 * (N / 4)
      have hlt := c4.2.2
      rcases hbounds a ha with ⟨-, hb1⟩ | ⟨-, hb1, hb2⟩ | ⟨-, hb1, hb2⟩ | ⟨-, hb1, hb2⟩ <;>
        omega
  · exact ⟨h0, h1, h2, h3, hst, hpw⟩

theorem interiorPath_logINV (e : GenEnv) (N : Nat) (h4 : 4 ∣ N) :
    ∀ (b j : Nat) (P R : Vec3) (s : GenState),
      interiorCountersOK N s → interiorLogINV N s →
      interiorLogINV N (interiorPath e N b j P R s)
  | 0, _, _, _, _, _, hs => hs
  | b + 1, j, P, R, s, hc, hs => by
    unfold interiorPath
    dsimp only
    have hc1 := interiorClassify_counters e N j
      (Ray.make (P + Vec3.smul (epsilonG e) R) R)
      (e.scene.intersect (Ray.make (P + Vec3.smul (epsilonG e) R) R)).1 s hc
    have hs1 := interiorClassify_logINV e N j
      (Ray.make (P + Vec3.smul (epsilonG e) R) R)
      (e.scene.intersect (Ray.make (P + Vec3.smul (epsilonG e) R) R)).1 s h4 hc hs
    split
    · exact hs1
    · exact interiorPath_logINV e N h4 b (j + 1) _ _ _ hc1 hs1

theorem interiorLoop_logINV (e : GenEnv) (N : Nat) (h4 : 4 ∣ N) :
    ∀ (fuel : Nat) (s : GenState),
      interiorCountersOK N s → interiorLogINV N s →
      interiorLogINV N (interiorLoop e N fuel s)
  | 0, _, _, hs => hs
  | fuel + 1, s, hc, hs => by
    unfold interiorLoop
    dsimp only
    split
    · exact interiorLoop_logINV e N h4 fuel _
        (interiorPath_counters e N 8 0 _ _ _ hc)
        (interiorPath_logINV e N h4 8 0 _ _ _ hc hs)
    · exact hs

theorem initGenState_interiorINV (N : Nat) :
    interiorCountersOK N initGenState ∧ interiorLogINV N initGenState := by
  refine ⟨⟨Nat.zero_le _, Nat.zero_le _, Nat.zero_le _, Nat.zero_le _⟩,
    rfl, rfl, rfl, rfl, ?_, List.Pairwise.nil⟩
  intro w hw
  exact absurd hw (List.not_mem_nil w)

theorem exteriorClassify_counters (e : GenEnv) (N j : Nat) (r : Ray) (h : Hit)
    (s : GenState) (hs : exteriorCountersOK N s) :
    exteriorCountersOK N (exteriorClassify e N j r h s) := by
  obtain ⟨h1, h2, h3⟩ := hs
  unfold exteriorClassify
  split_ifs with c1 c2 c3
  · exact ⟨c1.2.2, h2, h3⟩
  · exact ⟨h1, c2.2.2, h3⟩
  · exact ⟨h1, h2, c3.2.2⟩
  · exact ⟨h1, h2, h3⟩

theorem exteriorPath_counters (e : GenEnv) (N : Nat) :
    ∀ (b j : Nat) (P R : Vec3) (s : GenState), exteriorCountersOK N s →
      exteriorCountersOK N (exteriorPath e N b j P R s)
  | 0, _, _, _, _, hs => hs
  | b + 1, j, P, R, s, hs => by
    unfold exteriorPath
    dsimp only
    have hc := exteriorClassify_counters e N j
      (Ray.make (P + Vec3.smul (epsilonG e) R) R)
      (e.scene.intersect (Ray.make (P + Vec3.smul (epsilonG e) R) R)).1 s hs
    split
    · exact hc
    · exact exteriorPath_counters e N b (j + 1) _ _ _ hc

theorem exteriorLoop_counters (e : GenEnv) (N : Nat) (S : List Vec3) :
    ∀ (fuel : Nat) (s : GenState), exteriorCountersOK N s →
      exteriorCountersOK N (exteriorLoop e N S fuel s)
  | 0, _, hs => hs
  | fuel + 1, s, hs => by
    unfold exteriorLoop
    dsimp only
    split
    · exact exteriorLoop_counters e N S fuel _ (exteriorPath_counters e N 8 0 _ _ _ hs)
    · exact hs

theorem exterior_log_bounds (N : Nat) (s : GenState) (hs : exteriorLogINV N s) :
    ∀ w ∈ s.log,
      (w.stratum = 0 ∧ w.idx < s.n1) ∨
      (w.stratum = 1 ∧ N / 2 ≤ w.idx ∧ w.idx < N / 2 + s.n2) ∨
      (w.stratum = 2 ∧ 3 * (N / 4) ≤ w.idx ∧ w.idx < 3 * (N / 4) + s.n3) := by
  obtain ⟨h0, h1, h2, hst, -⟩ := hs
  intro w hw
  have hmem := mem_stratumIdxs_self s.log w hw
  have hle := hst w hw
  have hcase : w.stratum = 0 ∨ w.stratum = 1 ∨ w.stratum = 2 := by omega
  rcases hcase with h | h | h
  · rw [h, h0] at hmem
    exact Or.inl ⟨h, List.mem_range.1 hmem⟩
  · rw [h, h1] at hmem
    obtain ⟨m, hm, heq⟩ := List.mem_map.1 hmem
    have := List.mem_range.1 hm
    exact Or.inr (Or.inl ⟨h, by omega⟩)
  · rw [h, h2] at hmem
    obtain ⟨m, hm, heq⟩ := List.mem_map.1 hmem
    have := List.mem_range.1 hm
    exact Or.inr (Or.inr ⟨h, by omega⟩)

theorem exteriorClassify_logINV (e : GenEnv) (N j : Nat) (r : Ray) (h : Hit) (s : GenState)
    (h4 : 4 ∣ N) (hc : exteriorCountersOK N s) (hs : exteriorLogINV N s) :
    exteriorLogINV N (exteriorClassify e N j r h s) := by
  obtain ⟨q, hq⟩ := h4
  obtain ⟨hn1, hn2, hn3⟩ := hc
  have hbounds := exterior_log_bounds N s hs
  obtain ⟨h0, h1, h2, hst, hpw⟩ := hs
  unfold exteriorClassify
  split_ifs with c1 c2 c3
  · refine ⟨?_, ?_, ?_, ?_, ?_⟩
    · show stratumIdxs 0 (s.log ++ [⟨0, s.n1, r⟩]) = List.range (s.n1 + 1)
      rw [stratumIdxs_append_entry, if_pos rfl, h0, List.range_succ]
    · show stratumIdxs 1 (s.log ++ [⟨0, s.n1, r⟩]) =
        (List.range s.n2).map (fun m => m + N / 2)
      rw [stratumIdxs_append_entry, if_neg (by norm_num), h1, List.append_nil]
    · show stratumIdxs 2 (s.log ++ [⟨0, s.n1, r⟩]) =
        (List.range s.n3).map (fun m => m + 3 * (N / 4))
      rw [stratumIdxs_append_entry, if_neg (by norm_num), h2, List.append_nil]
    · intro w hw
      rcases List.mem_append.1 hw with hw | hw
      · exact hst w hw
      · rw [List.mem_singleton] at hw
        subst hw
        exact (by norm_num : (0 : Nat) ≤ 2)
    · rw [List.pairwise_append]
      refine ⟨hpw, List.pairwise_singleton _ _, ?_⟩
      intro a ha b hb
      rw [List.mem_singleton] at hb
      subst hb
      show a.idx ≠ s.n1
      have hlt := c1.2.2
      rcases hbounds a ha with ⟨-, hb1⟩ | ⟨-, hb1, hb2⟩ | ⟨-, hb1, hb2⟩ <;> omega
  · refine ⟨?_, ?_, ?_, ?_, ?_⟩
    · show stratumIdxs 0 (s.log ++ [⟨1, s.n2 + N / 2, r⟩]) = List.range s.n1
      rw [stratumIdxs_append_entry, if_neg (by norm_num), h0, List.append_nil]
    · show stratumIdxs 1 (s.log ++ [⟨1, s.n2 + N / 2, r⟩]) =
        (List.range (s.n2 + 1)).map (fun m => m + N / 2)
      rw [stratumIdxs_append_entry, if_pos rfl, h1, List.range_succ, List.map_append]
      simp
    · show stratumIdxs 2 (s.log ++ [⟨1, s.n2 + N / 2, r⟩]) =
        (List.range s.n3).map (fun m => m + 3 * (N / 4))
      rw [stratumIdxs_append_entry, if_neg (by norm_num), h2, List.append_nil]
    · intro w hw
      rcases List.mem_append.1 hw with hw | hw
      · exact hst w hw
      · rw [List.mem_singleton] at hw
        subst hw
        exact (by norm_num : (1 : Nat) ≤ 2)
    · rw [List.pairwise_append]
      refine ⟨hpw, List.pairwise_singleton _ _, ?_⟩
      intro a ha b hb
      rw [List.mem_singleton] at hb
      subst hb
      show a.idx ≠ s.n2 + N / 2
      have hlt := c2.2.2
      rcases hbounds a ha with ⟨-, hb1⟩ | ⟨-, hb1, hb2⟩ | ⟨-, hb1, hb2⟩ <;> omega
  · refine ⟨?_, ?_, ?_, ?_, ?_⟩
    · show stratumIdxs 0 (s.log ++ [⟨2, s.n3 + 3 * (N / 4), r⟩]) = List.range s.n1
      rw [stratumIdxs_append_entry, if_neg (by norm_num), h0, List.append_nil]
    · show stratumIdxs 1 (s.log ++ [⟨2, s.n3 + 3 * (N / 4), r⟩]) =
        (List.range s.n2).map (fun m => m + N / 2)
      rw [stratumIdxs_append_entry, if_neg (by norm_num), h1, List.append_nil]
    · show stratumIdxs 2 (s.log ++ [⟨2, s.n3 + 3 * (N / 4), r⟩]) =
        (List.range (s.n3 + 1)).map (fun m => m + 3 * (N / 4))
      rw [stratumIdxs_append_entry, if_pos rfl, h2, List.range_succ, List.map_append]
      simp
    · intro w hw
      rcases List.mem_append.1 hw with hw | hw
      · exact hst w hw
      · rw [List.mem_singleton] at hw
        subst hw
        exact (by norm_num : (2 : Nat) ≤ 2)
    · rw [List.pairwise_append]
      refine ⟨hpw, List.pairwise_singleton _ _, ?_⟩
      intro a ha b hb
      rw [List.mem_singleton] at hb
      subst hb
      show a.idx ≠ s.n3 + 3 * (N / 4)
      have hlt := c3.2.2
      rcases hbounds a ha with ⟨-, hb1⟩ | ⟨-, hb1, hb2⟩ | ⟨-, hb1, hb2⟩ <;> omega
  · exact ⟨h0, h1, h2, hst, hpw⟩

theorem exteriorPath_logINV (e : GenEnv) (N : Nat) (h4 : 4 ∣ N) :
    ∀ (b j : Nat) (P R : Vec3) (s : GenState),
      exteriorCountersOK N s → exteriorLogINV N s →
      exteriorLogINV N (exteriorPath e N b j P R s)
  | 0, _, _, _, _, _, hs => hs
  | b + 1, j, P, R, s, hc, hs => by
    unfold exteriorPath
    dsimp only
    have hc1 := exteriorClassify_counters e N j
      (Ray.make (P + Vec3.smul (epsilonG e) R) R)
      (e.scene.intersect (Ray.make (P + Vec3.smul (epsilonG e) R) R)).1 s hc
    have hs1 := exteriorClassify_logINV e N j
      (Ray.make (P + Vec3.smul (epsilonG e) R) R)
      (e.scene.intersect (Ray.make (P + Vec3.smul (epsilonG e) R) R)).1 s h4 hc hs
    split
    · exact hs1
    · exact exteriorPath_logINV e N h4 b (j + 1) _ _ _ hc1 hs1

theorem exteriorLoop_logINV (e : GenEnv) (N : Nat) (S : List Vec3) (h4 : 4 ∣ N) :
    ∀ (fuel : Nat) (s : GenState),
      exteriorCountersOK N s → exteriorLogINV N s →
      exteriorLogINV N (exteriorLoop e N S fuel s)
  | 0, _, _, hs => hs
  | fuel + 1, s, hc, hs => by
    unfold exteriorLoop
    dsimp only
    split
    · exact exteriorLoop_logINV e N S h4 fuel _
        (exteriorPath_counters e N 8 0 _ _ _ hc)
        (exteriorPath_logINV e N h4 8 0 _ _ _ hc hs)
    · exact hs

/-- C10: with `4 ∣ N` (as for every configured `RRS_SIZE`), the strata
occupy disjoint contiguous index ranges of the ray array and every slot
is written at most once.  Interior mode: stratum `k` writes exactly the
consecutive indices `base_k, base_k + 1, …` in generation order with
`base_k = k·(N/4)`, and every write of stratum `k` lands in
`[k·N/4, (k+1)·N/4)`.  Exterior mode: primary writes `[0, N/2)`,
secondary `[N/2, 3N/4)`, escape `[3N/4, N)`, likewise consecutive and in
generation order.  In both modes the written indices are pairwise
distinct. -/
theorem strata_ranges_disjoint_write_once (e e' : GenEnv) (N fuel fuel' : Nat)
    (sI sE : GenState) (h4 : 4 ∣ N)
    (hI : sI = RepresentativeRays e N RRS_INTERIOR fuel)
    (hE : sE = RepresentativeRays e' N RRS_OBJECT fuel') :
    (stratumIdxs 0 sI.log = List.range sI.n1 ∧
     stratumIdxs 1 sI.log = (List.range sI.n2).map (fun m => m + N / 4) ∧
     stratumIdxs 2 sI.log = (List.range sI.n3).map (fun m => m + N / 2) ∧
     stratumIdxs 3 sI.log = (List.range sI.n4).map (fun m => m + 3 * (N / 4)) ∧
     (∀ w ∈ sI.log, w.stratum ≤ 3 ∧ w.stratum * (N / 4) ≤ w.idx ∧
        w.idx < (w.stratum + 1) * (N / 4)) ∧
     (sI.log.map WriteEntry.idx).Nodup) ∧
    (stratumIdxs 0 sE.log = List.range sE.n1 ∧
     stratumIdxs 1 sE.log = (List.range sE.n2).map (fun m => m + N / 2) ∧
     stratumIdxs 2 sE.log = (List.range sE.n3).map (fun m => m + 3 * (N / 4)) ∧
     (∀ w ∈ sE.log, w.stratum ≤ 2 ∧
        (w.stratum = 0 → w.idx < N / 2) ∧
        (w.stratum = 1 → N / 2 ≤ w.idx ∧ w.idx < 3 * (N / 4)) ∧
        (w.stratum = 2 → 3 * (N / 4) ≤ w.idx ∧ w.idx < N)) ∧
     (sE.log.map WriteEntry.idx).Nodup) := by
  obtain ⟨q, hq⟩ := h4
  constructor
  · have hIrun : sI = interiorLoop e N fuel initGenState := by
      rw [hI]
      unfold RepresentativeRays
      rw [if_pos rfl]
    have hcnt : interiorCountersOK N sI := by
      rw [hIrun]
      exact interiorLoop_counters e N fuel initGenState (initGenState_interiorINV N).1
    have hlog : interiorLogINV N sI := by
      rw [hIrun]
      exact interiorLoop_logINV e N ⟨q, hq⟩ fuel initGenState
        (initGenState_interiorINV N).1 (initGenState_interiorINV N).2
    obtain ⟨hn1, hn2, hn3, hn4⟩ := hcnt
    have hbounds := interior_log_bounds N sI hlog
    obtain ⟨h0, h1, h2, h3, hst, hpw⟩ := hlog
    refine ⟨h0, h1, h2, h3, ?_, ?_⟩
    · intro w hw
      rcases hbounds w hw with ⟨he, hi⟩ | ⟨he, hi1, hi2⟩ | ⟨he, hi1, hi2⟩ | ⟨he, hi1, hi2⟩ <;>
        rw [he] <;> refine ⟨by norm_num, ?_, ?_⟩ <;> omega
    · show List.Pairwise (fun a b => a ≠ b) (sI.log.map WriteEntry.idx)
      rw [List.pairwise_map]
      exact hpw
  · have hErun : ∃ S s0, s0.n1 = 0 ∧ s0.n2 = 0 ∧ s0.n3 = 0 ∧ s0.log = [] ∧
        sE = exteriorLoop e' N S fuel' s0 := by
      refine ⟨(exteriorSpawnsAux e' 512 initGenState.seed []).1,
        { initGenState with seed := (exteriorSpawnsAux e' 512 initGenState.seed []).2 },
        rfl, rfl, rfl, rfl, ?_⟩
      rw [hE]
      unfold RepresentativeRays
      rw [if_neg (by norm_num [RRS_OBJECT, RRS_INTERIOR])]
    obtain ⟨S, s0, hz1, hz2, hz3, hzl, hErun⟩ := hErun
    have hinv0 : exteriorCountersOK N s0 ∧ exteriorLogINV N s0 := by
      refine ⟨⟨by omega, by omega, by omega⟩, ?_, ?_, ?_, ?_, ?_⟩
      · rw [hzl, hz1]; rfl
      · rw [hzl, hz2]; rfl
      · rw [hzl, hz3]; rfl
      · rw [hzl]; intro w hw; exact absurd hw (List.not_mem_nil w)
      · rw [hzl]; exact List.Pairwise.nil
    have hcnt : exteriorCountersOK N sE := by
      rw [hErun]
      exact exteriorLoop_counters e' N S fuel' s0 hinv0.1
    have hlog : exteriorLogINV N sE := by
      rw [hErun]
      exact exteriorLoop_logINV e' N S ⟨q, hq⟩ fuel' s0 hinv0.1 hinv0.2
    obtain ⟨hn1, hn2, hn3⟩ := hcnt
    have hbounds := exterior_log_bounds N sE hlog
    obtain ⟨h0, h1, h2, hst, hpw⟩ := hlog
    refine ⟨h0, h1, h2, ?_, ?_⟩
    · intro w hw
      rcases hbounds w hw with ⟨he, hi⟩ | ⟨he, hi1, hi2⟩ | ⟨he, hi1, hi2⟩ <;> rw [he] <;>
        exact ⟨by norm_num, by omega, by omega, by omega⟩
    · show List.Pairwise (fun a b => a ≠ b) (sE.log.map WriteEntry.idx)
      rw [List.pairwise_map]
      exact hpw

/-- Witness for C10 at the concrete interior and exterior runs: the
written ray-array indices are pairwise distinct in both modes. -/
theorem strata_ranges_disjoint_write_once_witness :
    ((RepresentativeRays cEnv3 4 RRS_INTERIOR 1).log.map WriteEntry.idx).Nodup ∧
    ((RepresentativeRays cEnv8 4 RRS_OBJECT 1).log.map WriteEntry.idx).Nodup :=
  ⟨(strata_ranges_disjoint_write_once cEnv3 cEnv8 4 1 1
      (RepresentativeRays cEnv3 4 RRS_INTERIOR 1) (RepresentativeRays cEnv8 4 RRS_OBJECT 1)
      ⟨1, rfl⟩ rfl rfl).1.2.2.2.2.2,
   (strata_ranges_disjoint_write_once cEnv3 cEnv8 4 1 1
      (RepresentativeRays cEnv3 4 RRS_INTERIOR 1) (RepresentativeRays cEnv8 4 RRS_OBJECT 1)
      ⟨1, rfl⟩ rfl rfl).2.2.2.2.2⟩

theorem exteriorSpawnsAux_const (e : GenEnv) (v : Vec3) :
    ∀ (n seed : Nat) (acc : List Vec3),
      (∀ s2, seed ≤ s2 → s2 < seed + n → e.rnd s2 = (v, s2 + 1)) →
      exteriorSpawnsAux e n seed acc =
        (acc.reverse ++ List.replicate n (Vec3.smul 2 (Vec3.cmul v e.scene.bext)), seed + n)
  | 0, seed, acc, h => by simp [exteriorSpawnsAux]
  | n + 1, seed, acc, h => by
    unfold exteriorSpawnsAux
    dsimp only
    rw [h seed (le_refl _) (by omega)]
    dsimp only
    rw [exteriorSpawnsAux_const e v n (seed + 1)
      (Vec3.smul 2 (Vec3.cmul v e.scene.bext) :: acc)
      (fun s2 h1 h2 => h s2 (by omega) (by omega))]
    rw [List.reverse_cons, List.append_assoc]
    have hrep : [Vec3.smul 2 (Vec3.cmul v e.scene.bext)] ++
        List.replicate n (Vec3.smul 2 (Vec3.cmul v e.scene.bext)) =
        List.replicate (n + 1) (Vec3.smul 2 (Vec3.cmul v e.scene.bext)) := by
      rw [List.replicate_succ]
      rfl
    rw [hrep]
    congr 1
    omega

theorem getD_replicate_lt (v d : Vec3) :
    ∀ (n i : Nat), i < n → (List.replicate n v).getD i d = v
  | 0, i, h => absurd h (Nat.not_lt_zero i)
  | _ + 1, 0, _ => rfl
  | n + 1, i + 1, h => getD_replicate_lt v d n i (by omega)

theorem c8_spawn_eval :
    exteriorSpawnsAux cEnv8 512 initGenState.seed [] =
      (List.replicate 512 ⟨2, 0, 0⟩, 0x123456 + 512) := by
  rw [exteriorSpawnsAux_const cEnv8 ⟨1, 0, 0⟩ 512 initGenState.seed []
    (fun s2 h1 h2 => by
      have h2a : s2 < 0x123456 + 512 := h2
      show cRnd8 s2 = _
      unfold cRnd8
      rw [if_pos (by omega)])]
  norm_num [cEnv8, cScene8, Vec3.cmul, Vec3.smul, initGenState]

theorem c8_run_eval :
    RepresentativeRays cEnv8 4 RRS_OBJECT 1 =
      exteriorLoop cEnv8 4 (List.replicate 512 ⟨2, 0, 0⟩) 1
        { initGenState with seed := 0x123456 + 512 } := by
  unfold RepresentativeRays
  rw [if_neg (by norm_num [RRS_OBJECT, RRS_INTERIOR])]
  dsimp only
  rw [c8_spawn_eval]

set_option maxHeartbeats 2000000 in
theorem c8_log_eval :
    (exteriorLoop cEnv8 4 (List.replicate 512 ⟨2, 0, 0⟩) 1
      { initGenState with seed := 0x123456 + 512 }).log =
    [⟨0, 0, ⟨⟨199999 / 100000, 0, 0⟩, ⟨-1, 0, 0⟩,
        ⟨1000000000000000000000000000000, 0⟩⟩⟩,
     ⟨1, 2, ⟨⟨-(1 / 100000), 0, 0⟩, ⟨-1, 0, 0⟩,
        ⟨1000000000000000000000000000000, 0⟩⟩⟩] := by
  norm_num [exteriorLoop, exteriorPath, exteriorClassify, Ray.make, longRay, shortRay,
    tooShort, epsilonG, sceneSize, cEnv8, cScene8, cIntersect8, cRnd8, cNormalize,
    tinybvh_max, initGenState, BVH_FAR, vadd_mk, vsub_mk, vneg_mk, vsmul_mk, vcmul_mk,
    vdot_mk, getD_replicate_lt]

/-- C8 counterexample: in a concrete exterior-mode run (unit box centered
at the origin, spawn points on the surrounding ellipsoid), the stored
secondary-stratum ray at array slot 2 originates at
`(-1/100000, 0, 0)` — strictly inside the scene's bounding box scaled by
the sampling sphere factor 2 — because secondary rays originate at path
bounce points near scene geometry, not at the exterior spawn points.  So
not every generated ray origin lies outside the scaled box. -/
theorem exterior_origin_inside_counterexample :
    ∃ w ∈ (RepresentativeRays cEnv8 4 RRS_OBJECT 1).log,
      w.idx = 2 ∧ insideScaledBox cScene8.bmin cScene8.bext 2 w.ray.O := by
  rw [c8_run_eval]
  refine ⟨⟨1, 2, ⟨⟨-(1 / 100000), 0, 0⟩, ⟨-1, 0, 0⟩,
      ⟨1000000000000000000000000000000, 0⟩⟩⟩, ?_, rfl, ?_⟩
  · rw [c8_log_eval]
    simp
  · refine ⟨⟨?_, ?_⟩, ⟨?_, ?_⟩, ⟨?_, ?_⟩⟩ <;> norm_num [cScene8]

theorem exteriorClassify_log_cases (e : GenEnv) (N j : Nat) (r : Ray) (h : Hit)
    (s : GenState) :
    ∀ w ∈ (exteriorClassify e N j r h s).log,
      w ∈ s.log ∨ (j = 0 ∧ w.ray = r ∧ w.stratum = 0) ∨ (0 < j ∧ w.stratum ≠ 0) := by
  unfold exteriorClassify
  split_ifs with c1 c2 c3
  · intro w hw
    rcases List.mem_append.1 hw with hw | hw
    · exact Or.inl hw
    · rw [List.mem_singleton] at hw
      subst hw
      exact Or.inr (Or.inl ⟨c1.1, rfl, rfl⟩)
  · intro w hw
    rcases List.mem_append.1 hw with hw | hw
    · exact Or.inl hw
    · rw [List.mem_singleton] at hw
      subst hw
      exact Or.inr (Or.inr ⟨c2.1, by norm_num⟩)
  · intro w hw
    rcases List.mem_append.1 hw with hw | hw
    · exact Or.inl hw
    · rw [List.mem_singleton] at hw
      subst hw
      exact Or.inr (Or.inr ⟨c3.1, by norm_num⟩)
  · intro w hw
    exact Or.inl hw

theorem exteriorPath_primary_origin (e : GenEnv) (N : Nat) :
    ∀ (b j : Nat) (P R : Vec3) (s : GenState), ∀ w ∈ (exteriorPath e N b j P R s).log,
      w.stratum = 0 →
      w ∈ s.log ∨ (j = 0 ∧ w.ray = Ray.make (P + Vec3.smul (epsilonG e) R) R)
  | 0, _, _, _, _, w, hw, _ => Or.inl hw
  | b + 1, j, P, R, s, w, hw, hstr => by
    rw [exteriorPath] at hw
    dsimp only at hw
    split at hw
    · rcases exteriorClassify_log_cases e N j _ _ s w hw with hmem | ⟨hj, hray, -⟩ | ⟨-, hne⟩
      · exact Or.inl hmem
      · exact Or.inr ⟨hj, hray⟩
      · exact absurd hstr hne
    · rcases exteriorPath_primary_origin e N b (j + 1) _ _ _ w hw hstr with hmem | ⟨hj, -⟩
      · rcases exteriorClassify_log_cases e N j _ _ s w hmem with hmem2 | ⟨hj, hray, -⟩ | ⟨-, hne⟩
        · exact Or.inl hmem2
        · exact Or.inr ⟨hj, hray⟩
        · exact absurd hstr hne
      · exact absurd hj (by omega)

theorem exteriorLoop_primary_origin (e : GenEnv) (N : Nat) (S : List Vec3) :
    ∀ (fuel : Nat) (s : GenState),
      (∀ w ∈ s.log, w.stratum = 0 →
        ∃ k, k < 512 ∧ w.ray.O = S.getD k ⟨0, 0, 0⟩ + Vec3.smul (epsilonG e) w.ray.D) →
      ∀ w ∈ (exteriorLoop e N S fuel s).log, w.stratum = 0 →
        ∃ k, k < 512 ∧ w.ray.O = S.getD k ⟨0, 0, 0⟩ + Vec3.smul (epsilonG e) w.ray.D
  | 0, _, hbase => hbase
  | fuel + 1, s, hbase => by
    rw [exteriorLoop]
    dsimp only
    split
    · refine exteriorLoop_primary_origin e N S fuel _ ?_
      intro w hw hstr
      rcases exteriorPath_primary_origin e N 8 0 _ _ _ w hw hstr with hmem | ⟨-, hray⟩
      · exact hbase w hmem hstr
      · exact ⟨s.spawnIdx % 512, Nat.mod_lt _ (by norm_num), by rw [hray]; rfl⟩
    · exact hbase

theorem exteriorSpawnsAux_mem (e : GenEnv) :
    ∀ (n seed : Nat) (acc : List Vec3), ∀ v ∈ (exteriorSpawnsAux e n seed acc).1,
      v ∈ acc ∨ ∃ s2, v = Vec3.smul 2 (Vec3.cmul (e.rnd s2).1 e.scene.bext)
  | 0, seed, acc, v, hv => Or.inl (by
      rw [exteriorSpawnsAux] at hv
      exact List.mem_reverse.1 hv)
  | n + 1, seed, acc, v, hv => by
    rw [exteriorSpawnsAux] at hv
    rcases exteriorSpawnsAux_mem e n (e.rnd seed).2 _ v hv with hacc | hex
    · rcases List.mem_cons.1 hacc with heq | hacc
      · exact Or.inr ⟨seed, heq⟩
      · exact Or.inl hacc
    · exact Or.inr hex

theorem unit_spawn_outside (u b : Vec3) (hu : isUnitVec u)
    (hpx : 0 < b.x) (hpy : 0 < b.y) (hpz : 0 < b.z) :
    ¬(|2 * (u.x * b.x)| ≤ b.x ∧ |2 * (u.y * b.y)| ≤ b.y ∧ |2 * (u.z * b.z)| ≤ b.z) := by
  rintro ⟨hx, hy, hz⟩
  have hx1 := abs_le.1 hx
  have hy1 := abs_le.1 hy
  have hz1 := abs_le.1 hz
  have keyx : (b.x - 2 * (u.x * b.x)) * (b.x + 2 * (u.x * b.x)) ≥ 0 :=
    mul_nonneg (by linarith [hx1.2]) (by linarith [hx1.1])
  have keyy : (b.y - 2 * (u.y * b.y)) * (b.y + 2 * (u.y * b.y)) ≥ 0 :=
    mul_nonneg (by linarith [hy1.2]) (by linarith [hy1.1])
  have keyz : (b.z - 2 * (u.z * b.z)) * (b.z + 2 * (u.z * b.z)) ≥ 0 :=
    mul_nonneg (by linarith [hz1.2]) (by linarith [hz1.1])
  have hux : u.x ^ 2 ≤ 1 / 4 := by nlinarith [keyx, mul_pos hpx hpx]
  have huy : u.y ^ 2 ≤ 1 / 4 := by nlinarith [keyy, mul_pos hpy hpy]
  have huz : u.z ^ 2 ≤ 1 / 4 := by nlinarith [keyz, mul_pos hpz hpz]
  unfold isUnitVec at hu
  linarith

/-- C8 (amended): in exterior mode only the primary-stratum rays are tied
to the spawn ellipsoid: every stored primary ray originates at one of the
512 spawn points, offset by epsilon along its own direction; and when the
direction generator yields unit vectors and the box extent is positive in
every component, every spawn point lies outside the origin-centered
axis-aligned box of twice the scene extent (the ellipsoid
`tinybvh_rndvec3 * bext * 2` is centered on the coordinate origin, which
is also where the source's scenes sit).  Secondary and escape rays
originate at path bounce points and may lie inside the scene's box, as
the counterexample shows. -/
theorem exterior_primary_spawn_origins (e : GenEnv) (N fuel : Nat)
    (hunit : ∀ s, isUnitVec (e.rnd s).1)
    (hpx : 0 < e.scene.bext.x) (hpy : 0 < e.scene.bext.y) (hpz : 0 < e.scene.bext.z) :
    (∀ w ∈ (RepresentativeRays e N RRS_OBJECT fuel).log, w.stratum = 0 →
      ∃ k, k < 512 ∧ w.ray.O =
        (exteriorSpawnsAux e 512 initGenState.seed []).1.getD k ⟨0, 0, 0⟩ +
          Vec3.smul (epsilonG e) w.ray.D) ∧
    (∀ v ∈ (exteriorSpawnsAux e 512 initGenState.seed []).1,
      ¬(|v.x| ≤ e.scene.bext.x ∧ |v.y| ≤ e.scene.bext.y ∧ |v.z| ≤ e.scene.bext.z)) := by
  constructor
  · have hrun : RepresentativeRays e N RRS_OBJECT fuel =
        exteriorLoop e N (exteriorSpawnsAux e 512 initGenState.seed []).1 fuel
          { initGenState with seed := (exteriorSpawnsAux e 512 initGenState.seed []).2 } := by
      unfold RepresentativeRays
      rw [if_neg (by norm_num [RRS_OBJECT, RRS_INTERIOR])]
    rw [hrun]
    refine exteriorLoop_primary_origin e N _ fuel _ ?_
    intro w hw
    exact absurd hw (List.not_mem_nil w)
  · intro v hv
    rcases exteriorSpawnsAux_mem e 512 initGenState.seed [] v hv with hacc | ⟨s2, heq⟩
    · exact absurd hacc (List.not_mem_nil v)
    · rw [heq]
      exact unit_spawn_outside (e.rnd s2).1 e.scene.bext (hunit s2) hpx hpy hpz

/-- Witness for the amended C8 at a concrete environment whose direction
generator produces the unit vector `(3/5, 4/5, 0)` over a unit box. -/
theorem exterior_primary_spawn_origins_witness :
    (∀ w ∈ (RepresentativeRays cEnvU 4 RRS_OBJECT 1).log, w.stratum = 0 →
      ∃ k, k < 512 ∧ w.ray.O =
        (exteriorSpawnsAux cEnvU 512 initGenState.seed []).1.getD k ⟨0, 0, 0⟩ +
          Vec3.smul (epsilonG cEnvU) w.ray.D) ∧
    (∀ v ∈ (exteriorSpawnsAux cEnvU 512 initGenState.seed []).1,
      ¬(|v.x| ≤ cEnvU.scene.bext.x ∧ |v.y| ≤ cEnvU.scene.bext.y ∧
        |v.z| ≤ cEnvU.scene.bext.z)) :=
  exterior_primary_spawn_origins cEnvU 4 1
    (fun _ => by norm_num [cEnvU, cRndU, isUnitVec])
    (by norm_num [cEnvU, cScene8]) (by norm_num [cEnvU, cScene8])
    (by norm_num [cEnvU, cScene8])

end TinyBvhOpt
